import Mathlib

/-!
Verification of the GIFT repository (file `GIFT-CIP.py`): a shallow embedding in
Lean 4 of the model-definition code, together with theorems settling the frozen
claims about it.

Modelling conventions:
* Python numbers are modelled with `ℚ` (exact rational semantics of the
  real-number formulas in the code) and `ℕ`/`ℤ` for integers.
* Tensors are modelled as row-major flat data `ℕ → ℚ` together with explicit
  shape fields; `reshape`/`view` is the identity on flat data, `transpose`
  permutes it.
* Fallible code (Python `assert` / `raise`) is modelled with `Option`.
* The tensor engine (PyTorch) and the external `TransformerEncoder` are
  collaborators: bilinear resampling (`F.interpolate`) is a parameter whose
  output spatial size is the requested one, and the transformer encoder is
  shape preserving on `(B, N, C)` per its stated contract.
-/

namespace GIFT


/-- Python's `int(...)` applied to a number: truncation toward zero. -/
def pyInt (q : ℚ) : ℤ := if 0 ≤ q then ⌊q⌋ else -⌊-q⌋

/-- Python 3's `round(...)` to an integer: round half to even. -/
def pyRound (q : ℚ) : ℤ :=
  let f := ⌊q⌋
  let d := q - f
  if d < 1/2 then f
  else if 1/2 < d then f + 1
  else if f % 2 = 0 then f else f + 1

/-- Function `make_divisible` from `GIFT-CIP.py` (lines 12-22):
`new_v = max(min_value, int(v + divisor / 2) // divisor * divisor)`;
if `new_v < 0.9 * v` then one divisor step is added.  Python's floor
division `//` is `Int.fdiv`. -/
def make_divisible (v : ℚ) (divisor : ℕ) (min_value : Option ℚ) : ℚ :=
  let minv : ℚ := min_value.getD divisor
  let new_v : ℚ := (((pyInt (v + (divisor : ℚ) / 2)).fdiv divisor * divisor : ℤ) : ℚ)
  let new_v : ℚ := max minv new_v
  if new_v < 9/10 * v then new_v + divisor else new_v

/-! ## Tensors

A tensor is row-major flat data `ℕ → ℚ` with explicit shape fields.
`reshape`/`view` reinterprets the shape without touching the flat data, so it
is modelled by shape bookkeeping alone; `transpose` permutes the flat data. -/

/-- A rank-4 tensor of shape `(b, c, h, w)`; `data k` is the element at
row-major flat index `k` (indices `≥ b*c*h*w` are irrelevant). -/
structure Tensor4 where
  b : ℕ
  c : ℕ
  h : ℕ
  w : ℕ
  data : ℕ → ℚ

/-- A rank-3 tensor of shape `(d0, d1, d2)` in row-major flat form. -/
structure Tensor3 where
  d0 : ℕ
  d1 : ℕ
  d2 : ℕ
  data : ℕ → ℚ

/-- Pointwise `x + y` on same-shaped tensors (shape taken from the left). -/
def Tensor4.add (x y : Tensor4) : Tensor4 :=
  ⟨x.b, x.c, x.h, x.w, fun k => x.data k + y.data k⟩

/-- The `transpose(1, 2)` of a tensor of shape `(s0, s1, s2, s3)` in row-major
flat form; the result has shape `(s0, s2, s1, s3)`. -/
def transpose12 (s1 s2 s3 : ℕ) (f : ℕ → ℚ) : ℕ → ℚ := fun k =>
  f ((((k / s3 / s1 / s2) * s1 + (k / s3) % s1) * s2 + (k / s3 / s1) % s2) * s3 + k % s3)

/-- The `transpose(1, 3)` of a tensor of shape `(s0, s1, s2, s3)` in row-major
flat form; the result has shape `(s0, s3, s2, s1)`. -/
def transpose13 (s1 s2 s3 : ℕ) (f : ℕ → ℚ) : ℕ → ℚ := fun k =>
  f ((((k / s1 / s2 / s3) * s1 + k % s1) * s2 + (k / s1) % s2) * s3 + (k / s1 / s2) % s3)

/-- Python expression `int(math.ceil(n / m) * m)`: `n` rounded up to a multiple of `m`. -/
def ceilMul (n m : ℕ) : ℕ := ((n + m - 1) / m) * m

/-! ## MobileViTBlock -/

/-- The metadata dictionary returned by `MobileViTBlock.unfolding`. -/
structure InfoDict where
  orig_h : ℕ
  orig_w : ℕ
  batch_size : ℕ
  interpolate : Bool
  total_patches : ℕ
  num_patches_w : ℕ
  num_patches_h : ℕ
deriving DecidableEq

/-- The attributes a `MobileViTBlock` stores in `__init__` (lines 148-230). -/
structure MobileViTBlock where
  cnn_in_dim : ℕ      -- `in_channels`
  cnn_out_dim : ℕ     -- `transformer_dim`
  ffn_dim : ℕ
  n_heads : ℕ
  n_blocks : ℕ
  patch_h : ℕ
  patch_w : ℕ
  conv_ksize : ℕ
  dropout : ℚ
  attn_dropout : ℚ
  ffn_dropout : ℚ
deriving DecidableEq

/-- Attribute `self.patch_area = self.patch_w * self.patch_h` (line 220). -/
def MobileViTBlock.patch_area (blk : MobileViTBlock) : ℕ := blk.patch_w * blk.patch_h

/-- Constructor `MobileViTBlock.__init__`: the `assert transformer_dim % head_dim == 0`
(line 198) runs during construction, before any forward call; on failure no
block is produced.  Otherwise `num_heads = transformer_dim // head_dim`. -/
def MobileViTBlock.init (in_channels transformer_dim ffn_dim n_transformer_blocks head_dim
    patch_h patch_w conv_ksize : ℕ) (attn_dropout dropout ffn_dropout : ℚ) :
    Option MobileViTBlock :=
  if transformer_dim % head_dim = 0 then
    some ⟨in_channels, transformer_dim, ffn_dim, transformer_dim / head_dim,
      n_transformer_blocks, patch_h, patch_w, conv_ksize, dropout, attn_dropout, ffn_dropout⟩
  else none

/-- Method `MobileViTBlock.unfolding` (lines 232-271).  `resample x nh nw` is the flat
data of `F.interpolate(x, size=(nh, nw), mode="bilinear", align_corners=False)`,
the tensor engine's resampling collaborator (its output spatial size is the
requested one).  The `reshape` steps keep the row-major flat data, the
`transpose` steps permute it. -/
def MobileViTBlock.unfolding (blk : MobileViTBlock)
    (resample : Tensor4 → ℕ → ℕ → (ℕ → ℚ)) (x : Tensor4) : Tensor3 × InfoDict :=
  let patch_w := blk.patch_w
  let patch_h := blk.patch_h
  let patch_area := patch_w * patch_h
  let batch_size := x.b
  let in_channels := x.c
  let orig_h := x.h
  let orig_w := x.w
  let new_h := ceilMul orig_h patch_h
  let new_w := ceilMul orig_w patch_w
  let interpolate : Bool := new_w != orig_w || new_h != orig_h
  let x1 : Tensor4 :=
    if new_w != orig_w || new_h != orig_h then
      ⟨batch_size, in_channels, new_h, new_w, resample x new_h new_w⟩
    else x
  let num_patch_w := new_w / patch_w
  let num_patch_h := new_h / patch_h
  let num_patches := num_patch_h * num_patch_w
  -- [B,C,H,W] -reshape-> [B*C*n_h, p_h, n_w, p_w] -transpose(1,2)->
  -- [B*C*n_h, n_w, p_h, p_w] -reshape-> [B,C,N,P] -transpose(1,3)->
  -- [B,P,N,C] -reshape-> [B*P, N, C]
  let d := transpose13 in_channels num_patches patch_area
    (transpose12 patch_h num_patch_w patch_w x1.data)
  (⟨batch_size * patch_area, num_patches, in_channels, d⟩,
   ⟨orig_h, orig_w, batch_size, interpolate, num_patches, num_patch_w, num_patch_h⟩)

/-- Method `MobileViTBlock.folding` (lines 273-302).  The rank-3 precondition
(`assert n_dim == 3`) is structural in `Tensor3`; the `-1` of
`view(B, P, N, -1)` is the flat size divided by `B * P * N`. -/
def MobileViTBlock.folding (blk : MobileViTBlock)
    (resample : Tensor4 → ℕ → ℕ → (ℕ → ℚ)) (x : Tensor3) (info : InfoDict) : Tensor4 :=
  let channels := x.d0 * x.d1 * x.d2 / (info.batch_size * blk.patch_area * info.total_patches)
  let num_patch_h := info.num_patches_h
  let num_patch_w := info.num_patches_w
  -- [BP,N,C] -view-> [B,P,N,C] -transpose(1,3)-> [B,C,N,P] -reshape->
  -- [B*C*n_h, n_w, p_h, p_w] -transpose(1,2)-> [B*C*n_h, p_h, n_w, p_w]
  -- -reshape-> [B, C, n_h*p_h, n_w*p_w]
  let d := transpose12 num_patch_w blk.patch_h blk.patch_w
    (transpose13 blk.patch_area info.total_patches channels x.data)
  let folded : Tensor4 :=
    ⟨info.batch_size, channels, num_patch_h * blk.patch_h, num_patch_w * blk.patch_w, d⟩
  if info.interpolate then
    ⟨info.batch_size, channels, info.orig_h, info.orig_w,
      resample folded info.orig_h info.orig_w⟩
  else folded

/-! ## ConvLayer and InvertedResidual -/

/-- What a `ConvLayer.__init__` (lines 25-76) configures: kernel and stride
normalised to pairs, `groups`, `bias`, and the optional norm/act stages.
The padding is always `((kernel.1 - 1) / 2, (kernel.2 - 1) / 2)`. -/
structure ConvCfg where
  in_channels : ℕ
  out_channels : ℕ
  kernel : ℕ × ℕ
  stride : ℕ × ℕ
  groups : ℕ
  bias : Bool
  use_norm : Bool
  use_act : Bool
deriving DecidableEq

/-- The attributes an `InvertedResidual.__init__` (lines 84-137) stores. -/
structure InvertedResidual where
  in_channels : ℕ
  out_channels : ℕ
  stride : ℕ
  exp : ℚ              -- `expand_ratio`
  skip_connection : Bool
deriving DecidableEq

/-- Derived width `hidden_dim = make_divisible(int(round(in_channels * expand_ratio)), 8)`
(line 93), read back as a natural number (the value is always ≥ 8 > 0). -/
def InvertedResidual.hidden_dim (r : InvertedResidual) : ℕ :=
  (⌊make_divisible ((pyRound ((r.in_channels : ℚ) * r.exp) : ℤ) : ℚ) 8 none⌋).toNat

/-- The `block` pipeline assembled in `InvertedResidual.__init__`: the
`exp_1x1` expansion is added only when `expand_ratio != 1`, then the depthwise
`conv_3x3` (`groups = hidden_dim`, the given stride) and the `red_1x1`
projection (norm but no activation). -/
def InvertedResidual.layers (r : InvertedResidual) : List ConvCfg :=
  (if r.exp ≠ 1 then
    [⟨r.in_channels, r.hidden_dim, (1, 1), (1, 1), 1, false, true, true⟩]
  else []) ++
  [⟨r.hidden_dim, r.hidden_dim, (3, 3), (r.stride, r.stride), r.hidden_dim, false, true, true⟩,
   ⟨r.hidden_dim, r.out_channels, (1, 1), (1, 1), 1, false, true, false⟩]

/-- Attribute `self.use_res_connect = (stride == 1 and in_channels == out_channels and
skip_connection)` (lines 135-137). -/
def InvertedResidual.use_res_connect (r : InvertedResidual) : Bool :=
  r.stride == 1 && r.in_channels == r.out_channels && r.skip_connection

/-- Constructor `InvertedResidual.__init__`: `assert stride in [1, 2]` fails fast (line
92); otherwise the attributes are recorded. -/
def InvertedResidual.init (in_channels out_channels stride : ℕ) (expand_ratio : ℚ)
    (skip_connection : Bool) : Option InvertedResidual :=
  if stride = 1 ∨ stride = 2 then
    some ⟨in_channels, out_channels, stride, expand_ratio, skip_connection⟩
  else none

/-- Method `InvertedResidual.forward` (lines 139-143); `blockFn` is the semantics of
the `block` pipeline with its learned parameters. -/
def InvertedResidual.forward (r : InvertedResidual) (blockFn : Tensor4 → Tensor4)
    (x : Tensor4) : Tensor4 :=
  if r.use_res_connect then Tensor4.add x (blockFn x) else blockFn x

/-! ## Stage builders -/

/-- The fields of a stage-configuration dict as read by `_make_layer`,
`_make_mobilenet_layer` and `_make_mit_layer` (with the `.get` defaults the
code supplies). -/
structure LayerCfg where
  block_type : String := "mobilevit"
  out_channels : ℕ
  num_blocks : ℕ := 2
  stride : ℕ := 1
  expand_ratio : ℚ := 4
  mv_expand_ratio : ℚ := 4
  transformer_channels : ℕ := 0
  ffn_dim : ℕ := 0
  num_heads : ℕ := 4
  transformer_blocks : ℕ := 1
  patch_h : ℕ := 2
  patch_w : ℕ := 2
  dropout : ℚ := 1/10
  ffn_dropout : ℚ := 0
  attn_dropout : ℚ := 1/10
deriving DecidableEq

/-- The loop of `_make_mobilenet_layer` (lines 398-408): for each index the
stride is the configured one only at index 0, and `input_channel` becomes
`output_channels` after every block (skip flag left at its default `True`). -/
def mobilenetLoop (cfg : LayerCfg) : List ℕ → ℕ → List InvertedResidual →
    Option (List InvertedResidual × ℕ)
  | [], input_channel, block => some (block, input_channel)
  | i :: rest, input_channel, block =>
    (InvertedResidual.init input_channel cfg.out_channels
        (if i = 0 then cfg.stride else 1) cfg.expand_ratio true).bind fun layer =>
      mobilenetLoop cfg rest cfg.out_channels (block ++ [layer])

/-- Builder `_make_mobilenet_layer` (lines 391-410): chains `num_blocks` inverted
residual units and returns them together with the final `input_channel`. -/
def make_mobilenet_layer (input_channel : ℕ) (cfg : LayerCfg) :
    Option (List InvertedResidual × ℕ) :=
  mobilenetLoop cfg (List.range cfg.num_blocks) input_channel []

/-! ## Shape semantics

Shape-level semantics of the forward graph: each module maps an input shape to
`some` output shape, or `none` where the tensor engine would raise (channel
mismatch, kernel larger than the padded input, mismatched operand shapes). -/

/-- The shape `(b, c, h, w)` of a rank-4 tensor. -/
structure Shape4 where
  b : ℕ
  c : ℕ
  h : ℕ
  w : ℕ
deriving DecidableEq

/-- Output shape of the convolution a `ConvLayer` configures: padding is
`(kernel-1)/2` per axis and each spatial dim maps to
`(dim + 2*pad - kernel)/stride + 1`; fails unless the input channel count
matches and the kernel fits the padded input. -/
def ConvCfg.outShape (cfg : ConvCfg) (s : Shape4) : Option Shape4 :=
  let ph := (cfg.kernel.1 - 1) / 2
  let pw := (cfg.kernel.2 - 1) / 2
  if s.c = cfg.in_channels ∧ 0 < cfg.stride.1 ∧ 0 < cfg.stride.2 ∧
      cfg.kernel.1 ≤ s.h + 2 * ph ∧ cfg.kernel.2 ≤ s.w + 2 * pw then
    some ⟨s.b, cfg.out_channels, (s.h + 2 * ph - cfg.kernel.1) / cfg.stride.1 + 1,
      (s.w + 2 * pw - cfg.kernel.2) / cfg.stride.2 + 1⟩
  else none

/-- Shape of a `nn.Sequential` chain of `ConvLayer`s. -/
def convChainShape : List ConvCfg → Shape4 → Option Shape4
  | [], s => some s
  | c :: rest, s => (c.outShape s).bind (convChainShape rest)

/-- Shape semantics of `InvertedResidual.forward`: the `block` pipeline of
`layers`, plus the residual add `x + block(x)` which needs matching shapes. -/
def InvertedResidual.forwardShape (r : InvertedResidual) (s : Shape4) : Option Shape4 :=
  (convChainShape r.layers s).bind fun out =>
    if r.use_res_connect then (if out = s then some s else none) else some out

/-- Local conv `conv_3x3_in` of `MobileViTBlock.__init__` (lines 166-171). -/
def MobileViTBlock.conv_3x3_in (blk : MobileViTBlock) : ConvCfg :=
  ⟨blk.cnn_in_dim, blk.cnn_in_dim, (blk.conv_ksize, blk.conv_ksize), (1, 1), 1,
    false, true, true⟩

/-- Local conv `conv_1x1_in` of `MobileViTBlock.__init__` (lines 172-179): no norm/act. -/
def MobileViTBlock.conv_1x1_in (blk : MobileViTBlock) : ConvCfg :=
  ⟨blk.cnn_in_dim, blk.cnn_out_dim, (1, 1), (1, 1), 1, false, false, false⟩

/-- Projection conv `conv_1x1_out` = `self.conv_proj` (lines 181-186, 215). -/
def MobileViTBlock.conv_proj (blk : MobileViTBlock) : ConvCfg :=
  ⟨blk.cnn_out_dim, blk.cnn_in_dim, (1, 1), (1, 1), 1, false, true, true⟩

/-- Fusion conv `conv_3x3_out` = `self.fusion` (lines 187-192, 216): `2·in → in`. -/
def MobileViTBlock.fusion (blk : MobileViTBlock) : ConvCfg :=
  ⟨2 * blk.cnn_in_dim, blk.cnn_in_dim, (blk.conv_ksize, blk.conv_ksize), (1, 1), 1,
    false, true, true⟩

/-- Shape semantics of `MobileViTBlock.forward` (lines 304-322): the local
representation convs, `unfolding`, the `global_rep` stack — the external
`TransformerEncoder` collaborator maps `(B, N, C) → (B, N, C)` (its stated
contract; modelled from the spec since `transformer.py` is not in the
repository) and the final `nn.LayerNorm(transformer_dim)` additionally
requires the feature dim to equal `transformer_dim` — then `folding`, the
projection conv, and the fusion conv on the channel-wise concatenation with
the original input (which needs matching batch/spatial dims). -/
def MobileViTBlock.forwardShape (blk : MobileViTBlock) (s : Shape4) : Option Shape4 :=
  (blk.conv_3x3_in.outShape s).bind fun s1 =>
  (blk.conv_1x1_in.outShape s1).bind fun s2 =>
  let new_h := ceilMul s2.h blk.patch_h
  let new_w := ceilMul s2.w blk.patch_w
  let num_patch_h := new_h / blk.patch_h
  let num_patch_w := new_w / blk.patch_w
  let num_patches := num_patch_h * num_patch_w
  let pd0 := s2.b * blk.patch_area
  let pd2 := s2.c
  if pd2 = blk.cnn_out_dim then
    let channels := pd0 * num_patches * pd2 / (s2.b * blk.patch_area * num_patches)
    let s3 : Shape4 :=
      if new_w != s2.w || new_h != s2.h then ⟨s2.b, channels, s2.h, s2.w⟩
      else ⟨s2.b, channels, num_patch_h * blk.patch_h, num_patch_w * blk.patch_w⟩
    (blk.conv_proj.outShape s3).bind fun s4 =>
    if s4.b = s.b ∧ s4.h = s.h ∧ s4.w = s.w then
      blk.fusion.outShape ⟨s.b, s.c + s4.c, s.h, s.w⟩
    else none
  else none

/-- The two module kinds a stage assembles. -/
inductive Block where
  | invres (r : InvertedResidual)
  | mvit (m : MobileViTBlock)
deriving DecidableEq

/-- Builder `_make_mit_layer` (lines 412-451): when the configured stride is 2, one
downsampling `InvertedResidual` (expansion `mv_expand_ratio`, default 4) which
updates the running channel count; then `head_dim = transformer_channels //
num_heads`, the `ValueError` divisibility check, and exactly one
`MobileViTBlock` (`conv_ksize = 3`); the running `input_channel` is returned
as the stage's output channel count. -/
def make_mit_layer (input_channel : ℕ) (cfg : LayerCfg) : Option (List Block × ℕ) :=
  (if cfg.stride = 2 then
    (InvertedResidual.init input_channel cfg.out_channels cfg.stride
        cfg.mv_expand_ratio true).bind fun layer =>
      some ([Block.invres layer], cfg.out_channels)
  else some (([] : List Block), input_channel)).bind fun pre =>
  let head_dim := cfg.transformer_channels / cfg.num_heads
  if cfg.transformer_channels % head_dim ≠ 0 then none
  else
    (MobileViTBlock.init pre.2 cfg.transformer_channels cfg.ffn_dim
        cfg.transformer_blocks head_dim cfg.patch_h cfg.patch_w 3
        cfg.attn_dropout cfg.dropout cfg.ffn_dropout).bind fun m =>
      some (pre.1 ++ [Block.mvit m], pre.2)

/-- Python's `str.lower()` on the (ASCII) configuration strings: each
character mapped to its lower-case form. -/
def strLower (s : String) : String := ⟨s.data.map Char.toLower⟩

/-- Dispatcher `_make_layer` (lines 384-389): dispatch on `block_type.lower()`. -/
def make_layer (input_channel : ℕ) (cfg : LayerCfg) : Option (List Block × ℕ) :=
  if strLower cfg.block_type = "mobilevit" then make_mit_layer input_channel cfg
  else (make_mobilenet_layer input_channel cfg).map fun r =>
    (r.1.map Block.invres, r.2)

/-! ## The GIFT_CIP network -/

/-- The model-configuration dict: the five stage configs plus the two global
scalars the network reads. -/
structure ModelCfg where
  layer1 : LayerCfg
  layer2 : LayerCfg
  layer3 : LayerCfg
  layer4 : LayerCfg
  layer5 : LayerCfg
  last_layer_exp_factor : ℕ
  cls_dropout : ℚ
deriving DecidableEq

/-- The modules `GIFT_CIP.__init__` (lines 327-382) assembles: four stem
convolutions, the per-route stages, the two 1×1 expansion convolutions
(width `min(last_layer_exp_factor · out, 960)`), the classifier dropout and
the class count of the final linear layer.  The pooling/flatten stages and
the fixed-size linear layers (5→320→160 and 1440→2560→1280→640→num_classes)
carry no configuration. -/
structure GIFT_CIP where
  conv_1_a : ConvCfg
  conv_1_v : ConvCfg
  conv_1_az : ConvCfg
  conv_1_vz : ConvCfg
  layer_1_a : List Block
  layer_2_a : List Block
  layer_3_a : List Block
  layer_1_v : List Block
  layer_2_v : List Block
  layer_3_v : List Block
  layer_1_az : List Block
  layer_2_az : List Block
  layer_3_az : List Block
  layer_1_vz : List Block
  layer_2_vz : List Block
  layer_3_vz : List Block
  layer_4_av : List Block
  layer_5_av : List Block
  layer_4_avz : List Block
  layer_5_avz : List Block
  conv_1x1_exp_av : ConvCfg
  conv_1x1_exp_avz : ConvCfg
  cls_dropout : ℚ
  num_classes : ℕ
deriving DecidableEq

/-- The stride-2 stem convolution each route applies first
(`image_channels = 1`, `out_channels = 16`; lines 330-334). -/
def stemConv : ConvCfg := ⟨1, 16, (3, 3), (2, 2), 1, false, true, true⟩

/-- The "layer1"–"layer3" stages of one imaging route (each of the four
routes runs this same construction from the 16-channel stem; lines
334-352). -/
def GIFT_CIP.routeStages (model_cfg : ModelCfg) :
    Option ((List Block × List Block × List Block) × ℕ) :=
  (make_layer 16 model_cfg.layer1).bind fun r1 =>
  (make_layer r1.2 model_cfg.layer2).bind fun r2 =>
  (make_layer r2.2 model_cfg.layer3).bind fun r3 =>
  some ((r1.1, r2.1, r3.1), r3.2)

/-- The "layer4"–"layer5" stages and the
`min(last_layer_exp_factor·out, 960)`-wide 1×1 expansion convolution of one
fused route (lines 354-371). -/
def GIFT_CIP.fusedStages (model_cfg : ModelCfg) (input_channel : ℕ) :
    Option ((List Block × List Block) × ConvCfg) :=
  (make_layer input_channel model_cfg.layer4).bind fun r4 =>
  (make_layer r4.2 model_cfg.layer5).bind fun r5 =>
  some ((r4.1, r5.1),
    ⟨r5.2, min (model_cfg.last_layer_exp_factor * r5.2) 960, (1, 1), (1, 1), 1,
      false, true, true⟩)

/-- Constructor `GIFT_CIP.__init__` (lines 327-382): the four imaging routes (a, v, az,
vz) each from the 16-channel stem, the two fused routes (av from route a's
output channels, avz from route az's), and the classifier configuration. -/
def GIFT_CIP.init (model_cfg : ModelCfg) (num_classes : ℕ) : Option GIFT_CIP :=
  (GIFT_CIP.routeStages model_cfg).bind fun ra =>
  (GIFT_CIP.routeStages model_cfg).bind fun rv =>
  (GIFT_CIP.routeStages model_cfg).bind fun raz =>
  (GIFT_CIP.routeStages model_cfg).bind fun rvz =>
  (GIFT_CIP.fusedStages model_cfg ra.2).bind fun fav =>
  (GIFT_CIP.fusedStages model_cfg raz.2).bind fun favz =>
  some ⟨stemConv, stemConv, stemConv, stemConv,
    ra.1.1, ra.1.2.1, ra.1.2.2, rv.1.1, rv.1.2.1, rv.1.2.2,
    raz.1.1, raz.1.2.1, raz.1.2.2, rvz.1.1, rvz.1.2.1, rvz.1.2.2,
    fav.1.1, fav.1.2, favz.1.1, favz.1.2,
    fav.2, favz.2, model_cfg.cls_dropout, num_classes⟩

/-- Shape semantics of one stage block. -/
def Block.forwardShape : Block → Shape4 → Option Shape4
  | .invres r, s => r.forwardShape s
  | .mvit m, s => m.forwardShape s

/-- Shape semantics of an `nn.Sequential` of stage blocks. -/
def blocksShape : List Block → Shape4 → Option Shape4
  | [], s => some s
  | b :: rest, s => (b.forwardShape s).bind (blocksShape rest)

/-- Shape of `nn.Linear(in_features, out_features)` on a rank-2 input:
fails unless the feature dim matches `in_features`. -/
def linearShape (in_features out_features : ℕ) (s : ℕ × ℕ) : Option (ℕ × ℕ) :=
  if s.2 = in_features then some (s.1, out_features) else none

/-- Pooling head `AdaptiveAvgPool2d(1)` + `Flatten` + `Dropout`: `(b, c, h, w) → (b, c)`
(the pool needs a nonempty spatial extent). -/
def poolFlattenShape (s : Shape4) : Option (ℕ × ℕ) :=
  if 0 < s.h ∧ 0 < s.w then some (s.b, s.c) else none

/-- Shape of one imaging route of `forward` (lines 474-493): stem conv then
stages 1–3. -/
def routeShape (conv : ConvCfg) (l1 l2 l3 : List Block) (s : Shape4) : Option Shape4 :=
  (conv.outShape s).bind fun s1 =>
  (blocksShape l1 s1).bind fun s2 =>
  (blocksShape l2 s2).bind fun s3 =>
  blocksShape l3 s3

/-- Shape of one fused route of `forward` (lines 497-506): stages 4–5, the
expansion conv, then pool/flatten/dropout. -/
def fusedShape (l4 l5 : List Block) (convExp : ConvCfg) (s : Shape4) :
    Option (ℕ × ℕ) :=
  (blocksShape l4 s).bind fun s1 =>
  (blocksShape l5 s1).bind fun s2 =>
  (convExp.outShape s2).bind fun s3 =>
  poolFlattenShape s3

/-- Shape of the clinical branch (lines 508-509): `Linear(5,320)` then
`Linear(320,160)`. -/
def clinicalShape (cf : ℕ × ℕ) : Option (ℕ × ℕ) :=
  (linearShape 5 320 cf).bind fun cf1 => linearShape 320 160 cf1

/-- Shape of the classifier head (lines 515-521):
`1440→2560→1280→640→num_classes`. -/
def headShape (num_classes : ℕ) (s : ℕ × ℕ) : Option (ℕ × ℕ) :=
  (linearShape 1440 2560 s).bind fun o1 =>
  (linearShape 2560 1280 o1).bind fun o2 =>
  (linearShape 1280 640 o2).bind fun o3 =>
  linearShape 640 num_classes o3

/-- Shape semantics of `GIFT_CIP.forward` (lines 473-521): the four imaging
routes, the elementwise-average fusions `0.5*a + 0.5*v` and
`0.5*az + 0.5*vz` (which need equal shapes), the two fused routes, the
clinical branch, the dim-1 concatenation (which needs equal batch sizes),
and the classifier head. -/
def GIFT_CIP.forwardShape (net : GIFT_CIP) (a v az vz : Shape4) (cf : ℕ × ℕ) :
    Option (ℕ × ℕ) :=
  (routeShape net.conv_1_a net.layer_1_a net.layer_2_a net.layer_3_a a).bind fun a4 =>
  (routeShape net.conv_1_v net.layer_1_v net.layer_2_v net.layer_3_v v).bind fun v4 =>
  (routeShape net.conv_1_az net.layer_1_az net.layer_2_az net.layer_3_az az).bind
    fun az4 =>
  (routeShape net.conv_1_vz net.layer_1_vz net.layer_2_vz net.layer_3_vz vz).bind
    fun vz4 =>
  (if a4 = v4 then some a4 else none).bind fun avS =>
  (if az4 = vz4 then some az4 else none).bind fun avzS =>
  (fusedShape net.layer_4_av net.layer_5_av net.conv_1x1_exp_av avS).bind fun avP =>
  (fusedShape net.layer_4_avz net.layer_5_avz net.conv_1x1_exp_avz avzS).bind
    fun avzP =>
  (clinicalShape cf).bind fun cf2 =>
  (if avP.1 = avzP.1 ∧ avP.1 = cf2.1 then
    some (avP.1, avP.2 + avzP.2 + cf2.2) else none).bind fun catd =>
  headShape net.num_classes catd

/-- An example hyperparameter bundle of the shape the external `get_config`
collaborator supplies (five stage configs, expansion factor, classifier
dropout), chosen so every stage and the 1440-wide classifier head line up. -/
def smallCfg : ModelCfg :=
  ⟨⟨"mv2", 32, 1, 1, 4, 4, 0, 0, 4, 1, 2, 2, 0, 0, 0⟩,
   ⟨"mv2", 64, 3, 2, 4, 4, 0, 0, 4, 1, 2, 2, 0, 0, 0⟩,
   ⟨"mobilevit", 96, 1, 2, 4, 4, 144, 288, 4, 2, 2, 2, 0, 0, 0⟩,
   ⟨"mobilevit", 128, 1, 2, 4, 4, 192, 384, 4, 2, 2, 2, 0, 0, 0⟩,
   ⟨"mobilevit", 160, 1, 2, 4, 4, 240, 480, 4, 2, 2, 2, 0, 0, 0⟩,
   4, 0⟩

/-- The network `GIFT_CIP.init smallCfg 3` builds. -/
def giftSmallNet : GIFT_CIP :=
  ⟨⟨1, 16, (3, 3), (2, 2), 1, false, true, true⟩,
   ⟨1, 16, (3, 3), (2, 2), 1, false, true, true⟩,
   ⟨1, 16, (3, 3), (2, 2), 1, false, true, true⟩,
   ⟨1, 16, (3, 3), (2, 2), 1, false, true, true⟩,
   [Block.invres ⟨16, 32, 1, 4, true⟩],
   [Block.invres ⟨32, 64, 2, 4, true⟩, Block.invres ⟨64, 64, 1, 4, true⟩,
    Block.invres ⟨64, 64, 1, 4, true⟩],
   [Block.invres ⟨64, 96, 2, 4, true⟩, Block.mvit ⟨96, 144, 288, 4, 2, 2, 2, 3, 0, 0, 0⟩],
   [Block.invres ⟨16, 32, 1, 4, true⟩],
   [Block.invres ⟨32, 64, 2, 4, true⟩, Block.invres ⟨64, 64, 1, 4, true⟩,
    Block.invres ⟨64, 64, 1, 4, true⟩],
   [Block.invres ⟨64, 96, 2, 4, true⟩, Block.mvit ⟨96, 144, 288, 4, 2, 2, 2, 3, 0, 0, 0⟩],
   [Block.invres ⟨16, 32, 1, 4, true⟩],
   [Block.invres ⟨32, 64, 2, 4, true⟩, Block.invres ⟨64, 64, 1, 4, true⟩,
    Block.invres ⟨64, 64, 1, 4, true⟩],
   [Block.invres ⟨64, 96, 2, 4, true⟩, Block.mvit ⟨96, 144, 288, 4, 2, 2, 2, 3, 0, 0, 0⟩],
   [Block.invres ⟨16, 32, 1, 4, true⟩],
   [Block.invres ⟨32, 64, 2, 4, true⟩, Block.invres ⟨64, 64, 1, 4, true⟩,
    Block.invres ⟨64, 64, 1, 4, true⟩],
   [Block.invres ⟨64, 96, 2, 4, true⟩, Block.mvit ⟨96, 144, 288, 4, 2, 2, 2, 3, 0, 0, 0⟩],
   [Block.invres ⟨96, 128, 2, 4, true⟩, Block.mvit ⟨128, 192, 384, 4, 2, 2, 2, 3, 0, 0, 0⟩],
   [Block.invres ⟨128, 160, 2, 4, true⟩, Block.mvit ⟨160, 240, 480, 4, 2, 2, 2, 3, 0, 0, 0⟩],
   [Block.invres ⟨96, 128, 2, 4, true⟩, Block.mvit ⟨128, 192, 384, 4, 2, 2, 2, 3, 0, 0, 0⟩],
   [Block.invres ⟨128, 160, 2, 4, true⟩, Block.mvit ⟨160, 240, 480, 4, 2, 2, 2, 3, 0, 0, 0⟩],
   ⟨160, 640, (1, 1), (1, 1), 1, false, true, true⟩,
   ⟨160, 640, (1, 1), (1, 1), 1, false, true, true⟩,
   0, 3⟩

/-! ## Theorems -/

theorem pyInt_of_nonneg {q : ℚ} (h : 0 ≤ q) : pyInt q = ⌊q⌋ := by
  simp [pyInt, h]

theorem floor_div_natCast (x : ℚ) (d : ℕ) (hd : 0 < d) :
    ⌊x / (d : ℚ)⌋ = ⌊x⌋ / (d : ℤ) := by
  have hd' : (0 : ℤ) < (d : ℤ) := by exact_mod_cast hd
  have hdq : (0 : ℚ) < (d : ℚ) := by exact_mod_cast hd
  apply le_antisymm
  · rw [Int.le_ediv_iff_mul_le hd', Int.le_floor]
    push_cast
    exact (le_div_iff₀ hdq).mp (Int.floor_le (x / (d : ℚ)))
  · rw [Int.le_floor]
    rw [le_div_iff₀ hdq]
    have h1 : (⌊x⌋ / (d : ℤ)) * (d : ℤ) ≤ ⌊x⌋ := Int.ediv_mul_le ⌊x⌋ hd'.ne'
    calc ((⌊x⌋ / (d : ℤ) : ℤ) : ℚ) * (d : ℚ)
        = (((⌊x⌋ / (d : ℤ)) * (d : ℤ) : ℤ) : ℚ) := by push_cast; ring
      _ ≤ (⌊x⌋ : ℚ) := by exact_mod_cast h1
      _ ≤ x := Int.floor_le x

/-- C3: for `v ≥ 0` and a positive divisor `d` (minimum defaulting to `d`),
`make_divisible` computes `candidate = max(d, ⌊(v + d/2)/d⌋ * d)`, adds one
divisor step exactly when `candidate < 0.9 * v`, and the result is a positive
multiple of `d`, at least the minimum `d`, and at least `0.9 * v`. -/
theorem make_divisible_spec (v : ℚ) (d : ℕ) (hv : 0 ≤ v) (hd : 0 < d) :
    (make_divisible v d none =
      if max (d : ℚ) ((⌊(v + (d : ℚ)/2) / (d : ℚ)⌋ * d : ℤ) : ℚ) < 9/10 * v
      then max (d : ℚ) ((⌊(v + (d : ℚ)/2) / (d : ℚ)⌋ * d : ℤ) : ℚ) + d
      else max (d : ℚ) ((⌊(v + (d : ℚ)/2) / (d : ℚ)⌋ * d : ℤ) : ℚ))
    ∧ (∃ k : ℤ, 0 < k ∧ make_divisible v d none = ((k * d : ℤ) : ℚ))
    ∧ (d : ℚ) ≤ make_divisible v d none
    ∧ 9/10 * v ≤ make_divisible v d none := by
  have hdq : (0 : ℚ) < (d : ℚ) := by exact_mod_cast hd
  have hx : (0 : ℚ) ≤ v + (d : ℚ) / 2 := by positivity
  have hfd : (pyInt (v + (d : ℚ) / 2)).fdiv d = ⌊(v + (d : ℚ)/2) / (d : ℚ)⌋ := by
    rw [pyInt_of_nonneg hx, floor_div_natCast _ _ hd]
    exact Int.fdiv_eq_ediv _ (by exact_mod_cast hd.le)
  set m : ℤ := ⌊(v + (d : ℚ)/2) / (d : ℚ)⌋ with hm
  have heq : make_divisible v d none =
      if max (d : ℚ) ((m * d : ℤ) : ℚ) < 9/10 * v
      then max (d : ℚ) ((m * d : ℤ) : ℚ) + d
      else max (d : ℚ) ((m * d : ℤ) : ℚ) := by
    simp only [make_divisible, Option.getD, hfd]
  have hm0 : 0 ≤ m := Int.floor_nonneg.mpr (by positivity)
  -- the candidate is `(max 1 m) * d`
  have hcand : max (d : ℚ) ((m * d : ℤ) : ℚ) = ((max 1 m * d : ℤ) : ℚ) := by
    rcases le_total 1 m with h1 | h1
    · rw [max_eq_right h1]
      refine max_eq_right ?_
      push_cast
      nlinarith [hdq, (by exact_mod_cast h1 : (1 : ℚ) ≤ (m : ℚ))]
    · rw [max_eq_left h1]
      have hle : ((m * d : ℤ) : ℚ) ≤ (d : ℚ) := by
        push_cast
        nlinarith [hdq, (by exact_mod_cast h1 : (m : ℚ) ≤ 1),
          (by exact_mod_cast hm0 : (0 : ℚ) ≤ (m : ℚ))]
      rw [max_eq_left hle]
      push_cast
      ring
  -- the candidate exceeds `v - d/2`
  have hlb : v - (d : ℚ)/2 < max (d : ℚ) ((m * d : ℤ) : ℚ) := by
    have h1 : (v + (d : ℚ)/2) / (d : ℚ) - 1 < (m : ℚ) := Int.sub_one_lt_floor _
    have h2 : v + (d : ℚ)/2 - (d : ℚ) < (m : ℚ) * (d : ℚ) := by
      have := (div_lt_iff₀ hdq).mp (by linarith : (v + (d : ℚ)/2) / (d : ℚ) < (m : ℚ) + 1)
      nlinarith
    have h3 : ((m * d : ℤ) : ℚ) = (m : ℚ) * (d : ℚ) := by push_cast; ring
    rw [h3] at *
    calc v - (d : ℚ)/2 = v + (d : ℚ)/2 - (d : ℚ) := by ring
      _ < (m : ℚ) * (d : ℚ) := h2
      _ ≤ max (d : ℚ) ((m : ℚ) * (d : ℚ)) := le_max_right _ _
  refine ⟨by rw [heq, hm], ?_, ?_, ?_⟩
  · rw [heq]
    split
    · refine ⟨max 1 m + 1, by omega, ?_⟩
      rw [hcand]; push_cast; ring
    · exact ⟨max 1 m, by omega, by rw [hcand]⟩
  · rw [heq]
    split
    · calc (d : ℚ) ≤ max (d : ℚ) ((m * d : ℤ) : ℚ) := le_max_left _ _
        _ ≤ max (d : ℚ) ((m * d : ℤ) : ℚ) + d := by linarith
    · exact le_max_left _ _
  · rw [heq]
    split
    · rename_i hlt
      calc (9:ℚ)/10 * v ≤ v := by linarith
        _ ≤ max (d : ℚ) ((m * d : ℤ) : ℚ) + d := by
            have := hlb
            linarith
    · rename_i hge
      linarith [not_lt.mp hge]

/-- Witness for C3 at `v = 44`, `d = 8`: the hypotheses hold and the result
is the multiple 48 of 8 which is at least `0.9 × 44`. -/
theorem make_divisible_spec_witness :
    (0 : ℚ) ≤ 44 ∧ 0 < 8 ∧
      ((8 : ℚ) ≤ make_divisible 44 8 none ∧ 9/10 * 44 ≤ make_divisible 44 8 none) := by
  refine ⟨by norm_num, by norm_num, ?_, ?_⟩
  · exact (make_divisible_spec 44 8 (by norm_num) (by norm_num)).2.2.1
  · exact (make_divisible_spec 44 8 (by norm_num) (by norm_num)).2.2.2

theorem mul_add_div_self (a b n : ℕ) (hn : 0 < n) (hb : b < n) : (a * n + b) / n = a := by
  rw [mul_comm a n, Nat.mul_add_div hn, Nat.div_eq_of_lt hb, Nat.add_zero]

theorem mul_add_mod_self (a b n : ℕ) (hb : b < n) : (a * n + b) % n = b := by
  rw [mul_comm a n, Nat.mul_add_mod, Nat.mod_eq_of_lt hb]

/-- Transposing dims 1 and 2 twice is the identity on the flat data. -/
theorem transpose12_involutive (s1 s2 s3 : ℕ) (h1 : 0 < s1) (h2 : 0 < s2) (h3 : 0 < s3)
    (f : ℕ → ℚ) : transpose12 s2 s1 s3 (transpose12 s1 s2 s3 f) = f := by
  funext k
  simp only [transpose12]
  have hi3 : k % s3 < s3 := Nat.mod_lt _ h3
  have hB : k / s3 / s2 % s1 < s1 := Nat.mod_lt _ h1
  have hq2 : k / s3 % s2 < s2 := Nat.mod_lt _ h2
  set M := ((k / s3 / s2 / s1 * s2 + k / s3 % s2) * s1 + k / s3 / s2 % s1) * s3 + k % s3 with hM
  have e1 : M % s3 = k % s3 := mul_add_mod_self _ _ _ hi3
  have e2 : M / s3 = (k / s3 / s2 / s1 * s2 + k / s3 % s2) * s1 + k / s3 / s2 % s1 :=
    mul_add_div_self _ _ _ h3 hi3
  have e3 : M / s3 % s1 = k / s3 / s2 % s1 := by rw [e2]; exact mul_add_mod_self _ _ _ hB
  have e4 : M / s3 / s1 = k / s3 / s2 / s1 * s2 + k / s3 % s2 := by
    rw [e2]; exact mul_add_div_self _ _ _ h1 hB
  have e5 : M / s3 / s1 % s2 = k / s3 % s2 := by rw [e4]; exact mul_add_mod_self _ _ _ hq2
  have e6 : M / s3 / s1 / s2 = k / s3 / s2 / s1 := by
    rw [e4]; exact mul_add_div_self _ _ _ h2 hq2
  rw [e1, e3, e5, e6, Nat.div_add_mod', Nat.div_add_mod', Nat.div_add_mod']

/-- Transposing dims 1 and 3 twice is the identity on the flat data. -/
theorem transpose13_involutive (s1 s2 s3 : ℕ) (h1 : 0 < s1) (h2 : 0 < s2) (h3 : 0 < s3)
    (f : ℕ → ℚ) : transpose13 s3 s2 s1 (transpose13 s1 s2 s3 f) = f := by
  funext k
  simp only [transpose13]
  have hi3 : k % s3 < s3 := Nat.mod_lt _ h3
  have hl : k / s3 / s2 % s1 < s1 := Nat.mod_lt _ h1
  have hq2 : k / s3 % s2 < s2 := Nat.mod_lt _ h2
  set M := ((k / s3 / s2 / s1 * s3 + k % s3) * s2 + k / s3 % s2) * s1 + k / s3 / s2 % s1
    with hM
  have e1 : M % s1 = k / s3 / s2 % s1 := mul_add_mod_self _ _ _ hl
  have e2 : M / s1 = (k / s3 / s2 / s1 * s3 + k % s3) * s2 + k / s3 % s2 :=
    mul_add_div_self _ _ _ h1 hl
  have e3 : M / s1 % s2 = k / s3 % s2 := by rw [e2]; exact mul_add_mod_self _ _ _ hq2
  have e4 : M / s1 / s2 = k / s3 / s2 / s1 * s3 + k % s3 := by
    rw [e2]; exact mul_add_div_self _ _ _ h2 hq2
  have e5 : M / s1 / s2 % s3 = k % s3 := by rw [e4]; exact mul_add_mod_self _ _ _ hi3
  have e6 : M / s1 / s2 / s3 = k / s3 / s2 / s1 := by
    rw [e4]; exact mul_add_div_self _ _ _ h3 hi3
  rw [e1, e3, e5, e6, Nat.div_add_mod', Nat.div_add_mod', Nat.div_add_mod']

theorem ceilMul_dvd (n m : ℕ) : m ∣ ceilMul n m := dvd_mul_left m _

theorem ceilMul_eq_of_dvd {n m : ℕ} (hm : 0 < m) (h : m ∣ n) : ceilMul n m = n := by
  obtain ⟨a, rfl⟩ := h
  have h1 : m * a + m - 1 = m * a + (m - 1) := Nat.add_sub_assoc hm _
  rw [ceilMul, h1, Nat.mul_add_div hm, Nat.div_eq_of_lt (by omega), Nat.add_zero, mul_comm]

theorem ceilMul_le_self (n m : ℕ) (hm : 0 < m) : n ≤ ceilMul n m := by
  rcases Nat.eq_zero_or_pos n with rfl | hn
  · exact Nat.zero_le _
  obtain ⟨q, r, hr, hqr⟩ : ∃ q r, r < m ∧ n = m * q + r := ⟨n / m, n % m, Nat.mod_lt _ hm,
    (Nat.div_add_mod n m).symm⟩
  rcases Nat.eq_zero_or_pos r with rfl | hr0
  · rw [Nat.add_zero] at hqr
    subst hqr
    rw [ceilMul_eq_of_dvd hm ⟨q, rfl⟩]
  · have hms : m * (q + 1) = m * q + m := by ring
    have h1 : n + m - 1 = m * (q + 1) + (r - 1) := by
      subst hqr
      omega
    rw [ceilMul, h1, Nat.mul_add_div hm, Nat.div_eq_of_lt (by omega), Nat.add_zero]
    have hms' : (q + 1) * m = m * q + m := by ring
    omega

/-- Value `ceilMul n m` is the least multiple of `m` that is at least `n`. -/
theorem ceilMul_min (n m : ℕ) (hm : 0 < m) : ∀ j, m ∣ j → n ≤ j → ceilMul n m ≤ j := by
  intro j hj hnj
  obtain ⟨b, rfl⟩ := hj
  obtain ⟨q, r, hr, hqr⟩ : ∃ q r, r < m ∧ n = m * q + r := ⟨n / m, n % m, Nat.mod_lt _ hm,
    (Nat.div_add_mod n m).symm⟩
  rcases Nat.eq_zero_or_pos r with rfl | hr0
  · rw [Nat.add_zero] at hqr
    subst hqr
    rw [ceilMul_eq_of_dvd hm ⟨q, rfl⟩]
    exact hnj
  · have hms : m * (q + 1) = m * q + m := by ring
    have h1 : n + m - 1 = m * (q + 1) + (r - 1) := by
      subst hqr
      omega
    rw [ceilMul, h1, Nat.mul_add_div hm, Nat.div_eq_of_lt (by omega), Nat.add_zero]
    have hqb : q < b := by
      by_contra hq
      push_neg at hq
      have : m * b ≤ m * q := Nat.mul_le_mul_left m hq
      omega
    calc (q + 1) * m ≤ b * m := Nat.mul_le_mul_right m hqb
      _ = m * b := mul_comm _ _

/-- C2: for an input whose spatial dims are exact multiples of the patch dims,
`unfolding` never engages the resampling path (`interpolate = false`) and
`folding` with the returned metadata reproduces the input tensor exactly. -/
theorem folding_unfolding_roundtrip (blk : MobileViTBlock)
    (resample : Tensor4 → ℕ → ℕ → (ℕ → ℚ)) (x : Tensor4)
    (hb : 0 < x.b) (hc : 0 < x.c) (hh : 0 < x.h) (hw : 0 < x.w)
    (hph : 0 < blk.patch_h) (hpw : 0 < blk.patch_w)
    (hdh : blk.patch_h ∣ x.h) (hdw : blk.patch_w ∣ x.w) :
    (blk.unfolding resample x).2.interpolate = false ∧
    blk.folding resample (blk.unfolding resample x).1 (blk.unfolding resample x).2 = x := by
  obtain ⟨B, C, H, W, f⟩ := x
  simp only at hb hc hh hw hdh hdw
  have hnh : ceilMul H blk.patch_h = H := ceilMul_eq_of_dvd hph hdh
  have hnw : ceilMul W blk.patch_w = W := ceilMul_eq_of_dvd hpw hdw
  have hnph : 0 < H / blk.patch_h := Nat.div_pos (Nat.le_of_dvd hh hdh) hph
  have hnpw : 0 < W / blk.patch_w := Nat.div_pos (Nat.le_of_dvd hw hdw) hpw
  have hN : 0 < H / blk.patch_h * (W / blk.patch_w) := Nat.mul_pos hnph hnpw
  have hP : 0 < blk.patch_w * blk.patch_h := Nat.mul_pos hpw hph
  constructor
  · simp [MobileViTBlock.unfolding, hnh, hnw]
  · simp only [MobileViTBlock.unfolding, MobileViTBlock.folding, MobileViTBlock.patch_area,
      hnh, hnw, bne_self_eq_false, Bool.or_self, Bool.false_eq_true, if_false,
      Bool.if_false_left]
    have hchan : B * (blk.patch_w * blk.patch_h) * (H / blk.patch_h * (W / blk.patch_w)) * C /
        (B * (blk.patch_w * blk.patch_h) * (H / blk.patch_h * (W / blk.patch_w))) = C :=
      Nat.mul_div_cancel_left C (by positivity)
    rw [hchan, transpose13_involutive _ _ _ hc hN hP, transpose12_involutive _ _ _ hph hnpw hpw,
      Nat.div_mul_cancel hdh, Nat.div_mul_cancel hdw]

/-- Witness for C2 at a `(2,3,8,8)` tensor with `(4,4)` patches. -/
theorem folding_unfolding_roundtrip_witness :
    ((0:ℕ) < 2 ∧ (0:ℕ) < 4 ∧ (4:ℕ) ∣ 8) ∧
    (MobileViTBlock.unfolding ⟨3, 64, 128, 2, 2, 4, 4, 3, 0, 0, 0⟩ (fun _ _ _ => fun _ => 0)
        ⟨2, 3, 8, 8, fun k => (k : ℚ)⟩).2.interpolate = false ∧
    MobileViTBlock.folding ⟨3, 64, 128, 2, 2, 4, 4, 3, 0, 0, 0⟩ (fun _ _ _ => fun _ => 0)
      (MobileViTBlock.unfolding ⟨3, 64, 128, 2, 2, 4, 4, 3, 0, 0, 0⟩ (fun _ _ _ => fun _ => 0)
        ⟨2, 3, 8, 8, fun k => (k : ℚ)⟩).1
      (MobileViTBlock.unfolding ⟨3, 64, 128, 2, 2, 4, 4, 3, 0, 0, 0⟩ (fun _ _ _ => fun _ => 0)
        ⟨2, 3, 8, 8, fun k => (k : ℚ)⟩).2 = ⟨2, 3, 8, 8, fun k => (k : ℚ)⟩ := by
  refine ⟨⟨by decide, by decide, by decide⟩, ?_⟩
  exact folding_unfolding_roundtrip ⟨3, 64, 128, 2, 2, 4, 4, 3, 0, 0, 0⟩
    (fun _ _ _ => fun _ => 0) ⟨2, 3, 8, 8, fun k => (k : ℚ)⟩
    (by decide) (by decide) (by decide) (by decide) (by decide) (by decide)
    (by decide) (by decide)

/-- C5: `unfolding` returns a tensor of shape `(B·ph·pw, num_patches, C)` with
`num_patches = (padded_H/ph)·(padded_W/pw)`, where the padded sizes are the
least multiples of `ph`, `pw` at least `H`, `W`; `interpolate` is recorded as
true exactly when the padded size differs from the original size. -/
theorem unfolding_shape (blk : MobileViTBlock)
    (resample : Tensor4 → ℕ → ℕ → (ℕ → ℚ)) (x : Tensor4)
    (hph : 0 < blk.patch_h) (hpw : 0 < blk.patch_w) :
    (blk.unfolding resample x).1.d0 = x.b * (blk.patch_h * blk.patch_w) ∧
    (blk.unfolding resample x).1.d1 =
      (ceilMul x.h blk.patch_h / blk.patch_h) * (ceilMul x.w blk.patch_w / blk.patch_w) ∧
    (blk.unfolding resample x).1.d2 = x.c ∧
    (blk.patch_h ∣ ceilMul x.h blk.patch_h ∧ x.h ≤ ceilMul x.h blk.patch_h ∧
      ∀ j, blk.patch_h ∣ j → x.h ≤ j → ceilMul x.h blk.patch_h ≤ j) ∧
    (blk.patch_w ∣ ceilMul x.w blk.patch_w ∧ x.w ≤ ceilMul x.w blk.patch_w ∧
      ∀ j, blk.patch_w ∣ j → x.w ≤ j → ceilMul x.w blk.patch_w ≤ j) ∧
    ((blk.unfolding resample x).2.interpolate = true ↔
      (ceilMul x.h blk.patch_h ≠ x.h ∨ ceilMul x.w blk.patch_w ≠ x.w)) ∧
    (blk.unfolding resample x).2.total_patches = (blk.unfolding resample x).1.d1 ∧
    (blk.unfolding resample x).2.num_patches_h = ceilMul x.h blk.patch_h / blk.patch_h ∧
    (blk.unfolding resample x).2.num_patches_w = ceilMul x.w blk.patch_w / blk.patch_w ∧
    (blk.unfolding resample x).2.batch_size = x.b ∧
    (blk.unfolding resample x).2.orig_h = x.h ∧
    (blk.unfolding resample x).2.orig_w = x.w := by
  refine ⟨by simp [MobileViTBlock.unfolding, Nat.mul_comm blk.patch_w blk.patch_h],
    by simp [MobileViTBlock.unfolding], by simp [MobileViTBlock.unfolding],
    ⟨ceilMul_dvd _ _, ceilMul_le_self _ _ hph, ceilMul_min _ _ hph⟩,
    ⟨ceilMul_dvd _ _, ceilMul_le_self _ _ hpw, ceilMul_min _ _ hpw⟩,
    ?_, by simp [MobileViTBlock.unfolding], by simp [MobileViTBlock.unfolding],
    by simp [MobileViTBlock.unfolding], by simp [MobileViTBlock.unfolding],
    by simp [MobileViTBlock.unfolding], by simp [MobileViTBlock.unfolding]⟩
  simp only [MobileViTBlock.unfolding]
  rw [Bool.or_eq_true, bne_iff_ne, bne_iff_ne]
  tauto

/-- Witness for C5 at a `(1,3,7,7)` tensor with `(4,4)` patches. -/
theorem unfolding_shape_witness :
    ((0:ℕ) < 4) ∧
    (MobileViTBlock.unfolding ⟨3, 64, 128, 2, 2, 4, 4, 3, 0, 0, 0⟩ (fun _ _ _ => fun _ => 0)
        ⟨1, 3, 7, 7, fun _ => 0⟩).1.d0 = 1 * (4 * 4) ∧
    ((MobileViTBlock.unfolding ⟨3, 64, 128, 2, 2, 4, 4, 3, 0, 0, 0⟩ (fun _ _ _ => fun _ => 0)
        ⟨1, 3, 7, 7, fun _ => 0⟩).2.interpolate = true ↔
      (ceilMul 7 4 ≠ 7 ∨ ceilMul 7 4 ≠ 7)) := by
  refine ⟨by decide, ?_, ?_⟩
  · exact (unfolding_shape ⟨3, 64, 128, 2, 2, 4, 4, 3, 0, 0, 0⟩ (fun _ _ _ => fun _ => 0)
      ⟨1, 3, 7, 7, fun _ => 0⟩ (by decide) (by decide)).1
  · exact (unfolding_shape ⟨3, 64, 128, 2, 2, 4, 4, 3, 0, 0, 0⟩ (fun _ _ _ => fun _ => 0)
      ⟨1, 3, 7, 7, fun _ => 0⟩ (by decide) (by decide)).2.2.2.2.2.1

/-- C6: on a `(1,3,7,7)` input with `(4,4)` patches, `unfolding` resamples to
the padded `(8,8)` size (`interpolate = true`, `2×2 = 4` patches, metadata
records the original `7×7` size), and `folding` with that metadata restores
the original `(1,3,7,7)` shape exactly, whatever the resampling collaborator
returns for the values. -/
theorem unfolding_misaligned_roundtrip_shape
    (resample : Tensor4 → ℕ → ℕ → (ℕ → ℚ)) (f : ℕ → ℚ) :
    ceilMul 7 4 = 8 ∧
    (MobileViTBlock.unfolding ⟨3, 64, 128, 2, 2, 4, 4, 3, 0, 0, 0⟩ resample
      ⟨1, 3, 7, 7, f⟩).2 = ⟨7, 7, 1, true, 4, 2, 2⟩ ∧
    (MobileViTBlock.unfolding ⟨3, 64, 128, 2, 2, 4, 4, 3, 0, 0, 0⟩ resample
      ⟨1, 3, 7, 7, f⟩).1.d0 = 16 ∧
    (MobileViTBlock.unfolding ⟨3, 64, 128, 2, 2, 4, 4, 3, 0, 0, 0⟩ resample
      ⟨1, 3, 7, 7, f⟩).1.d1 = 4 ∧
    (MobileViTBlock.unfolding ⟨3, 64, 128, 2, 2, 4, 4, 3, 0, 0, 0⟩ resample
      ⟨1, 3, 7, 7, f⟩).1.d2 = 3 ∧
    (MobileViTBlock.folding ⟨3, 64, 128, 2, 2, 4, 4, 3, 0, 0, 0⟩ resample
      (MobileViTBlock.unfolding ⟨3, 64, 128, 2, 2, 4, 4, 3, 0, 0, 0⟩ resample
        ⟨1, 3, 7, 7, f⟩).1
      (MobileViTBlock.unfolding ⟨3, 64, 128, 2, 2, 4, 4, 3, 0, 0, 0⟩ resample
        ⟨1, 3, 7, 7, f⟩).2).b = 1 ∧
    (MobileViTBlock.folding ⟨3, 64, 128, 2, 2, 4, 4, 3, 0, 0, 0⟩ resample
      (MobileViTBlock.unfolding ⟨3, 64, 128, 2, 2, 4, 4, 3, 0, 0, 0⟩ resample
        ⟨1, 3, 7, 7, f⟩).1
      (MobileViTBlock.unfolding ⟨3, 64, 128, 2, 2, 4, 4, 3, 0, 0, 0⟩ resample
        ⟨1, 3, 7, 7, f⟩).2).c = 3 ∧
    (MobileViTBlock.folding ⟨3, 64, 128, 2, 2, 4, 4, 3, 0, 0, 0⟩ resample
      (MobileViTBlock.unfolding ⟨3, 64, 128, 2, 2, 4, 4, 3, 0, 0, 0⟩ resample
        ⟨1, 3, 7, 7, f⟩).1
      (MobileViTBlock.unfolding ⟨3, 64, 128, 2, 2, 4, 4, 3, 0, 0, 0⟩ resample
        ⟨1, 3, 7, 7, f⟩).2).h = 7 ∧
    (MobileViTBlock.folding ⟨3, 64, 128, 2, 2, 4, 4, 3, 0, 0, 0⟩ resample
      (MobileViTBlock.unfolding ⟨3, 64, 128, 2, 2, 4, 4, 3, 0, 0, 0⟩ resample
        ⟨1, 3, 7, 7, f⟩).1
      (MobileViTBlock.unfolding ⟨3, 64, 128, 2, 2, 4, 4, 3, 0, 0, 0⟩ resample
        ⟨1, 3, 7, 7, f⟩).2).w = 7 := by
  refine ⟨by norm_num [ceilMul], ?_, ?_, ?_, ?_, ?_, ?_, ?_, ?_⟩ <;>
    simp [MobileViTBlock.unfolding, MobileViTBlock.folding, MobileViTBlock.patch_area, ceilMul]

/-- C8: constructing a `MobileViTBlock` whose transformer (embedding) dimension
is not divisible by the head dimension fails at construction time: no block
object (hence no forward operation) is ever produced. -/
theorem mobilevit_init_head_dim_check (in_channels transformer_dim ffn_dim n_blocks head_dim
    patch_h patch_w conv_ksize : ℕ) (attn_dropout dropout ffn_dropout : ℚ)
    (h : transformer_dim % head_dim ≠ 0) :
    MobileViTBlock.init in_channels transformer_dim ffn_dim n_blocks head_dim
      patch_h patch_w conv_ksize attn_dropout dropout ffn_dropout = none := by
  simp [MobileViTBlock.init, h]

/-- Witness for C8 at the spec's example: embedding dim 100, head dim 32. -/
theorem mobilevit_init_head_dim_check_witness :
    (100 % 32 ≠ 0) ∧
    MobileViTBlock.init 64 100 256 2 32 2 2 3 0 0 0 = none :=
  ⟨by decide, mobilevit_init_head_dim_check 64 100 256 2 32 2 2 3 0 0 0 (by decide)⟩

/-- C4: a unit built by `__init__` computes `x + block(x)` exactly when it was
constructed with stride 1, equal in/out channel counts and the skip flag set;
in every other case `forward` returns `block(x)` alone. -/
theorem inverted_residual_forward_spec (in_channels out_channels stride : ℕ)
    (expand_ratio : ℚ) (skip_connection : Bool) (r : InvertedResidual)
    (h : InvertedResidual.init in_channels out_channels stride expand_ratio skip_connection
      = some r) (blockFn : Tensor4 → Tensor4) (x : Tensor4) :
    r.forward blockFn x =
      if stride = 1 ∧ in_channels = out_channels ∧ skip_connection = true
      then Tensor4.add x (blockFn x) else blockFn x := by
  rw [InvertedResidual.init] at h
  split at h
  case isFalse => exact absurd h (by simp)
  case isTrue hs =>
  obtain rfl : (⟨in_channels, out_channels, stride, expand_ratio, skip_connection⟩ :
      InvertedResidual) = r := Option.some.inj h
  have hcond : (InvertedResidual.use_res_connect
      ⟨in_channels, out_channels, stride, expand_ratio, skip_connection⟩ = true) ↔
      (stride = 1 ∧ in_channels = out_channels ∧ skip_connection = true) := by
    simp [InvertedResidual.use_res_connect, and_assoc]
  rw [InvertedResidual.forward]
  by_cases hc : stride = 1 ∧ in_channels = out_channels ∧ skip_connection = true
  · rw [if_pos (hcond.mpr hc), if_pos hc]
  · rw [if_neg (fun hh => hc (hcond.mp hh)), if_neg hc]

/-- Witness for C4: a stride-1, 32→32, skip-enabled unit adds the residual. -/
theorem inverted_residual_forward_spec_witness :
    InvertedResidual.forward ⟨32, 32, 1, 4, true⟩ id ⟨1, 32, 8, 8, fun _ => 1⟩ =
      Tensor4.add ⟨1, 32, 8, 8, fun _ => 1⟩ (id ⟨1, 32, 8, 8, fun _ => 1⟩) := by
  have h := inverted_residual_forward_spec 32 32 1 4 true ⟨32, 32, 1, 4, true⟩
    (by decide) id ⟨1, 32, 8, 8, fun _ => 1⟩
  rwa [if_pos ⟨rfl, rfl, rfl⟩] at h

theorem pyRound_intCast (n : ℤ) : pyRound ((n : ℤ) : ℚ) = n := by
  simp [pyRound]

/-- Identity `make_divisible(n, 8) = n` for a positive multiple of 8. -/
theorem make_divisible_eq_self_of_dvd {n : ℕ} (h8 : 8 ∣ n) (hn : 0 < n) :
    make_divisible (n : ℚ) 8 none = (n : ℚ) := by
  obtain ⟨k, rfl⟩ := h8
  have hk : 1 ≤ k := by omega
  have hfl : pyInt (((8 * k : ℕ) : ℚ) + (8 : ℚ) / 2) = 8 * (k : ℤ) + 4 := by
    rw [pyInt_of_nonneg (by positivity)]
    rw [show (((8 * k : ℕ) : ℚ) + (8 : ℚ) / 2) = ((8 * (k : ℤ) + 4 : ℤ) : ℚ) by
      push_cast; ring]
    exact Int.floor_intCast _
  have hdiv : (8 * (k : ℤ) + 4).fdiv 8 = (k : ℤ) := by
    rw [Int.fdiv_eq_ediv _ (by norm_num)]
    omega
  have hmax : max (8 : ℚ) (((k : ℤ) * 8 : ℤ) : ℚ) = ((8 * k : ℕ) : ℚ) := by
    rw [max_eq_right]
    · push_cast; ring
    · push_cast
      nlinarith [(by exact_mod_cast hk : (1 : ℚ) ≤ (k : ℚ))]
  rw [make_divisible]
  simp only [Option.getD, Nat.cast_ofNat, hfl, hdiv, hmax]
  have hlt : ¬ (((8 * k : ℕ) : ℚ) < 9/10 * ((8 * k : ℕ) : ℚ)) := by
    have : (0 : ℚ) < ((8 * k : ℕ) : ℚ) := by positivity
    linarith
  rw [if_neg hlt]

/-- C7 (amended): with expansion ratio exactly 1 the `exp_1x1` stage is
omitted and the depthwise stage consumes `hidden_dim =
make_divisible(in_channels, 8)` directly as its width; this equals
`in_channels` exactly on positive multiples of 8, not for every value of
`in_channels`. -/
theorem expand_ratio_one_layers (in_channels out_channels stride : ℕ) (skip : Bool)
    (r : InvertedResidual)
    (h : InvertedResidual.init in_channels out_channels stride 1 skip = some r) :
    r.layers =
      [⟨r.hidden_dim, r.hidden_dim, (3, 3), (stride, stride), r.hidden_dim, false, true, true⟩,
       ⟨r.hidden_dim, out_channels, (1, 1), (1, 1), 1, false, true, false⟩] ∧
    r.hidden_dim = (⌊make_divisible ((in_channels : ℚ)) 8 none⌋).toNat ∧
    (8 ∣ in_channels → 0 < in_channels → r.hidden_dim = in_channels) := by
  rw [InvertedResidual.init] at h
  split at h
  case isFalse => exact absurd h (by simp)
  case isTrue hs =>
  obtain rfl : (⟨in_channels, out_channels, stride, 1, skip⟩ :
      InvertedResidual) = r := Option.some.inj h
  have hhd : InvertedResidual.hidden_dim ⟨in_channels, out_channels, stride, 1, skip⟩ =
      (⌊make_divisible ((in_channels : ℚ)) 8 none⌋).toNat := by
    rw [InvertedResidual.hidden_dim]
    rw [show ((in_channels : ℚ) * (1 : ℚ)) = (((in_channels : ℤ) : ℤ) : ℚ) by push_cast; ring]
    rw [pyRound_intCast]
    norm_num
  refine ⟨by simp [InvertedResidual.layers], hhd, ?_⟩
  intro hdvd hpos
  rw [hhd, make_divisible_eq_self_of_dvd hdvd hpos]
  rw [Int.floor_natCast]
  exact Int.toNat_natCast _

/-- C7 counterexample: with `expand_ratio = 1` and `in_channels = 20` the
expansion is omitted but the depthwise stage consumes
`hidden_dim = make_divisible(20, 8) = 24 ≠ 20` input channels, refuting the
claim that it consumes `in_channels` directly for every value. -/
theorem expand_ratio_one_hidden_dim_counterexample :
    InvertedResidual.init 20 20 1 1 true = some ⟨20, 20, 1, 1, true⟩ ∧
    (InvertedResidual.layers ⟨20, 20, 1, 1, true⟩).map ConvCfg.in_channels = [24, 24] ∧
    (24 : ℕ) ≠ 20 := by
  refine ⟨by decide, ?_, by decide⟩
  have h24 : InvertedResidual.hidden_dim ⟨20, 20, 1, 1, true⟩ = 24 := by
    rw [InvertedResidual.hidden_dim]
    norm_num [pyRound, make_divisible, pyInt, Int.fdiv]
    decide
  simp [InvertedResidual.layers, h24]

/-- Witness for C7's amended claim at `in_channels = 32`: the depthwise width
is exactly 32. -/
theorem expand_ratio_one_layers_witness :
    ((8 : ℕ) ∣ 32 ∧ (0 : ℕ) < 32) ∧
    InvertedResidual.hidden_dim ⟨32, 32, 1, 1, true⟩ = 32 := by
  refine ⟨⟨by decide, by decide⟩, ?_⟩
  exact (expand_ratio_one_layers 32 32 1 true ⟨32, 32, 1, 1, true⟩
    (by decide)).2.2 (by decide) (by decide)

theorem mobilenetLoop_ones (cfg : LayerCfg) (l : List ℕ) (hl : ∀ i ∈ l, i ≠ 0)
    (acc : List InvertedResidual) :
    mobilenetLoop cfg l cfg.out_channels acc =
      some (acc ++ l.map
          (fun _ => ⟨cfg.out_channels, cfg.out_channels, 1, cfg.expand_ratio, true⟩),
        cfg.out_channels) := by
  induction l generalizing acc with
  | nil => simp [mobilenetLoop]
  | cons i rest ih =>
    have hi : i ≠ 0 := hl i (List.mem_cons_self _ _)
    rw [mobilenetLoop, if_neg hi, InvertedResidual.init, if_pos (Or.inl rfl)]
    rw [Option.some_bind, ih (fun j hj => hl j (List.mem_cons_of_mem _ hj))]
    simp

/-- C9 (amended): for `num_blocks ≥ 1` and a valid stride, the residual-stack
builder produces exactly `num_blocks` units — the first with the configured
stride and the `input → out_channels` transition, all later ones with stride 1
and `out_channels → out_channels` — and returns the configured output channel
count.  (With `num_blocks = 0` it returns the incoming channel count.) -/
theorem make_mobilenet_layer_spec (input_channel : ℕ) (cfg : LayerCfg)
    (hstride : cfg.stride = 1 ∨ cfg.stride = 2) (hnb : 1 ≤ cfg.num_blocks) :
    ∃ blocks : List InvertedResidual,
      make_mobilenet_layer input_channel cfg = some (blocks, cfg.out_channels) ∧
      blocks.length = cfg.num_blocks ∧
      ∀ i (hi : i < blocks.length),
        (blocks.get ⟨i, hi⟩).stride = (if i = 0 then cfg.stride else 1) ∧
        (blocks.get ⟨i, hi⟩).in_channels =
          (if i = 0 then input_channel else cfg.out_channels) ∧
        (blocks.get ⟨i, hi⟩).out_channels = cfg.out_channels := by
  obtain ⟨m, hm⟩ : ∃ m, cfg.num_blocks = m + 1 := ⟨cfg.num_blocks - 1, by omega⟩
  refine ⟨⟨input_channel, cfg.out_channels, cfg.stride, cfg.expand_ratio, true⟩ ::
    List.replicate m ⟨cfg.out_channels, cfg.out_channels, 1, cfg.expand_ratio, true⟩,
    ?_, ?_, ?_⟩
  · rw [make_mobilenet_layer, hm, List.range_succ_eq_map]
    rw [mobilenetLoop, if_pos rfl, InvertedResidual.init, if_pos hstride, Option.some_bind]
    rw [mobilenetLoop_ones cfg _ (by simp) _]
    simp [Function.comp_def, List.map_const']
  · simp [hm]
  · intro i hi
    match i with
    | 0 => exact ⟨rfl, rfl, rfl⟩
    | Nat.succ j =>
      have hj : j < m := by
        have := hi
        simp at this
        omega
      have hget : (((⟨input_channel, cfg.out_channels, cfg.stride, cfg.expand_ratio, true⟩ :
          InvertedResidual) ::
          List.replicate m (⟨cfg.out_channels, cfg.out_channels, 1, cfg.expand_ratio, true⟩ :
            InvertedResidual)).get ⟨j + 1, hi⟩) =
          (⟨cfg.out_channels, cfg.out_channels, 1, cfg.expand_ratio, true⟩ :
            InvertedResidual) := by
        rw [List.get_cons_succ]
        simp
      rw [hget]
      exact ⟨by simp, by simp, rfl⟩

/-- C9 counterexample: a residual-stack configuration with `num_blocks = 0`
makes the builder return the incoming channel count 16, not the configured
output channel count 24. -/
theorem make_mobilenet_layer_zero_blocks_counterexample :
    make_mobilenet_layer 16 ⟨"mv2", 24, 0, 1, 4, 4, 0, 0, 4, 1, 2, 2, 0, 0, 0⟩ =
      some ([], 16) ∧ (16 : ℕ) ≠ 24 := by
  exact ⟨rfl, by decide⟩

/-- Witness for C9's amended claim: out 24 from 16, 3 blocks, stride 2. -/
theorem make_mobilenet_layer_spec_witness :
    (((2 : ℕ) = 1 ∨ (2 : ℕ) = 2) ∧ (1 : ℕ) ≤ 3) ∧
    ∃ blocks : List InvertedResidual,
      make_mobilenet_layer 16 ⟨"mv2", 24, 3, 2, 4, 4, 0, 0, 4, 1, 2, 2, 0, 0, 0⟩ =
        some (blocks, 24) ∧ blocks.length = 3 := by
  obtain ⟨blocks, h1, h2, -⟩ := make_mobilenet_layer_spec 16
    ⟨"mv2", 24, 3, 2, 4, 4, 0, 0, 4, 1, 2, 2, 0, 0, 0⟩ (Or.inr rfl) (by norm_num)
  exact ⟨⟨Or.inr rfl, by norm_num⟩, blocks, h1, h2⟩

theorem outShape_k3s1 (cin cout g : ℕ) (un ua : Bool) (B H W : ℕ)
    (hh : 0 < H) (hw : 0 < W) :
    ConvCfg.outShape ⟨cin, cout, (3, 3), (1, 1), g, false, un, ua⟩ ⟨B, cin, H, W⟩ =
      some ⟨B, cout, H, W⟩ := by
  rw [ConvCfg.outShape]
  rw [if_pos ⟨rfl, by norm_num, by norm_num, by simp; omega, by simp; omega⟩]
  congr 1
  simp
  omega

theorem outShape_k1s1 (cin cout g : ℕ) (un ua : Bool) (B H W : ℕ)
    (hh : 0 < H) (hw : 0 < W) :
    ConvCfg.outShape ⟨cin, cout, (1, 1), (1, 1), g, false, un, ua⟩ ⟨B, cin, H, W⟩ =
      some ⟨B, cout, H, W⟩ := by
  rw [ConvCfg.outShape]
  rw [if_pos ⟨rfl, by norm_num, by norm_num, by simp; omega, by simp; omega⟩]
  congr 1
  simp
  omega

/-- Method `MobileViTBlock.forward` preserves its input shape: helper for C10. -/
theorem mobilevit_forwardShape_eq (blk : MobileViTBlock) (s : Shape4)
    (hc : s.c = blk.cnn_in_dim) (hb : 0 < s.b) (hh : 0 < s.h) (hw : 0 < s.w)
    (hph : 0 < blk.patch_h) (hpw : 0 < blk.patch_w) (hk : blk.conv_ksize = 3) :
    blk.forwardShape s = some s := by
  obtain ⟨B, C, H, W⟩ := s
  simp only at hc hb hh hw
  subst hc
  have h1 : blk.conv_3x3_in.outShape ⟨B, blk.cnn_in_dim, H, W⟩ =
      some ⟨B, blk.cnn_in_dim, H, W⟩ := by
    rw [MobileViTBlock.conv_3x3_in, hk]
    exact outShape_k3s1 _ _ _ _ _ _ _ _ hh hw
  have h2 : blk.conv_1x1_in.outShape ⟨B, blk.cnn_in_dim, H, W⟩ =
      some ⟨B, blk.cnn_out_dim, H, W⟩ := by
    rw [MobileViTBlock.conv_1x1_in]
    exact outShape_k1s1 _ _ _ _ _ _ _ _ hh hw
  have hproj : blk.conv_proj.outShape ⟨B, blk.cnn_out_dim, H, W⟩ =
      some ⟨B, blk.cnn_in_dim, H, W⟩ := by
    rw [MobileViTBlock.conv_proj]
    exact outShape_k1s1 _ _ _ _ _ _ _ _ hh hw
  have hfus : blk.fusion.outShape ⟨B, blk.cnn_in_dim + blk.cnn_in_dim, H, W⟩ =
      some ⟨B, blk.cnn_in_dim, H, W⟩ := by
    rw [MobileViTBlock.fusion, hk, show blk.cnn_in_dim + blk.cnn_in_dim =
      2 * blk.cnn_in_dim from (two_mul _).symm]
    exact outShape_k3s1 _ _ _ _ _ _ _ _ hh hw
  have hH : 0 < ceilMul H blk.patch_h := lt_of_lt_of_le hh (ceilMul_le_self _ _ hph)
  have hW : 0 < ceilMul W blk.patch_w := lt_of_lt_of_le hw (ceilMul_le_self _ _ hpw)
  have hnph : 0 < ceilMul H blk.patch_h / blk.patch_h :=
    Nat.div_pos (Nat.le_of_dvd hH (ceilMul_dvd _ _)) hph
  have hnpw : 0 < ceilMul W blk.patch_w / blk.patch_w :=
    Nat.div_pos (Nat.le_of_dvd hW (ceilMul_dvd _ _)) hpw
  have hPA : 0 < blk.patch_area := Nat.mul_pos hpw hph
  have hchan : B * blk.patch_area *
        (ceilMul H blk.patch_h / blk.patch_h * (ceilMul W blk.patch_w / blk.patch_w)) *
        blk.cnn_out_dim /
      (B * blk.patch_area *
        (ceilMul H blk.patch_h / blk.patch_h * (ceilMul W blk.patch_w / blk.patch_w))) =
      blk.cnn_out_dim :=
    Nat.mul_div_cancel_left _ (by positivity)
  rw [MobileViTBlock.forwardShape, h1, Option.some_bind, h2, Option.some_bind]
  simp only [if_pos rfl, hchan]
  by_cases hal : (ceilMul W blk.patch_w != W || ceilMul H blk.patch_h != H) = true
  · simp only [hal, if_true, hproj, Option.some_bind]
    simp [hfus]
  · have hal' : (ceilMul W blk.patch_w != W || ceilMul H blk.patch_h != H) = false := by
      rw [Bool.not_eq_true] at hal
      exact hal
    have halw : ceilMul W blk.patch_w = W := by
      have h := hal'
      simp only [Bool.or_eq_false_iff, bne_eq_false_iff_eq] at h
      exact h.1
    have halh : ceilMul H blk.patch_h = H := by
      have h := hal'
      simp only [Bool.or_eq_false_iff, bne_eq_false_iff_eq] at h
      exact h.2
    simp only [hal', Bool.false_eq_true, if_false]
    rw [Nat.div_mul_cancel (ceilMul_dvd H blk.patch_h),
      Nat.div_mul_cancel (ceilMul_dvd W blk.patch_w), halh, halw]
    simp only [hproj, Option.some_bind]
    simp [hfus]

/-- C10: the hybrid block's forward preserves its input's shape (same batch,
channel count and spatial size, for any input whose channel count equals the
block's configured `in_channels`); consequently a hybrid stage built with
configured stride ≠ 2 returns its incoming channel count unchanged as the
stage's output channel count, ignoring the configured `out_channels`. -/
theorem mobilevit_block_shape_invariant :
    (∀ (blk : MobileViTBlock) (s : Shape4), s.c = blk.cnn_in_dim → 0 < s.b → 0 < s.h →
      0 < s.w → 0 < blk.patch_h → 0 < blk.patch_w → blk.conv_ksize = 3 →
      blk.forwardShape s = some s) ∧
    (∀ (input_channel : ℕ) (cfg : LayerCfg) (res : List Block × ℕ),
      cfg.stride ≠ 2 → make_mit_layer input_channel cfg = some res →
      res.2 = input_channel) := by
  constructor
  · exact fun blk s hc hb hh hw hph hpw hk =>
      mobilevit_forwardShape_eq blk s hc hb hh hw hph hpw hk
  · intro ic cfg res hs h
    rw [make_mit_layer, if_neg hs, Option.some_bind] at h
    simp only [ne_eq] at h
    split at h
    · exact absurd h (by simp)
    · obtain ⟨m, hm, h⟩ := Option.bind_eq_some.mp h
      obtain rfl : (([Block.mvit m] : List Block), ic) = res := by
        have := Option.some.inj h
        simpa using this
      rfl

/-- Witness for C10: a 32-channel block on a `(1,32,8,8)` input, and a
stride-1 hybrid stage keeping its incoming channel count 32. -/
theorem mobilevit_block_shape_invariant_witness :
    ((⟨1, 32, 8, 8⟩ : Shape4).c = (32 : ℕ) ∧ (1 : ℕ) ≠ 2) ∧
    MobileViTBlock.forwardShape ⟨32, 64, 128, 4, 2, 2, 2, 3, 0, 0, 0⟩ ⟨1, 32, 8, 8⟩ =
      some ⟨1, 32, 8, 8⟩ ∧
    (([Block.mvit ⟨32, 64, 128, 4, 2, 2, 2, 3, 0, 0, 0⟩], 32) :
      List Block × ℕ).2 = 32 := by
  refine ⟨⟨rfl, by decide⟩, ?_, ?_⟩
  · exact mobilevit_block_shape_invariant.1 ⟨32, 64, 128, 4, 2, 2, 2, 3, 0, 0, 0⟩
      ⟨1, 32, 8, 8⟩ rfl (by decide) (by decide) (by decide) (by decide) (by decide) rfl
  · exact mobilevit_block_shape_invariant.2 32
      ⟨"mobilevit", 96, 1, 1, 4, 4, 64, 128, 4, 2, 2, 2, 0, 0, 0⟩
      ([Block.mvit ⟨32, 64, 128, 4, 2, 2, 2, 3, 0, 0, 0⟩], 32)
      (by decide) (by decide)

theorem convOutShape_b {cfg : ConvCfg} {s t : Shape4} (h : cfg.outShape s = some t) :
    t.b = s.b := by
  rw [ConvCfg.outShape] at h
  split at h
  · obtain rfl := Option.some.inj h
    rfl
  · exact absurd h (by simp)

theorem convChainShape_b (l : List ConvCfg) : ∀ {s t : Shape4},
    convChainShape l s = some t → t.b = s.b := by
  induction l with
  | nil =>
    intro s t h
    obtain rfl := Option.some.inj h
    rfl
  | cons c rest ih =>
    intro s t h
    rw [convChainShape] at h
    obtain ⟨u, hu, h2⟩ := Option.bind_eq_some.mp h
    exact (ih h2).trans (convOutShape_b hu)

theorem invres_forwardShape_b {r : InvertedResidual} {s t : Shape4}
    (h : r.forwardShape s = some t) : t.b = s.b := by
  rw [InvertedResidual.forwardShape] at h
  obtain ⟨u, hu, h2⟩ := Option.bind_eq_some.mp h
  split at h2
  · split at h2
    · obtain rfl := Option.some.inj h2
      rfl
    · exact absurd h2 (by simp)
  · obtain rfl := Option.some.inj h2
    exact convChainShape_b _ hu

theorem mobilevit_forwardShape_b {blk : MobileViTBlock} {s t : Shape4}
    (h : blk.forwardShape s = some t) : t.b = s.b := by
  rw [MobileViTBlock.forwardShape] at h
  obtain ⟨s1, h1, h⟩ := Option.bind_eq_some.mp h
  obtain ⟨s2, h2, h⟩ := Option.bind_eq_some.mp h
  simp only [ne_eq] at h
  split at h
  · obtain ⟨s4, h4, h⟩ := Option.bind_eq_some.mp h
    split at h
    · have hb := convOutShape_b h
      exact hb
    · exact absurd h (by simp)
  · exact absurd h (by simp)

theorem block_forwardShape_b {b : Block} {s t : Shape4}
    (h : b.forwardShape s = some t) : t.b = s.b := by
  cases b with
  | invres r => exact invres_forwardShape_b h
  | mvit m => exact mobilevit_forwardShape_b h

theorem blocksShape_b (l : List Block) : ∀ {s t : Shape4},
    blocksShape l s = some t → t.b = s.b := by
  induction l with
  | nil =>
    intro s t h
    obtain rfl := Option.some.inj h
    rfl
  | cons b rest ih =>
    intro s t h
    rw [blocksShape] at h
    obtain ⟨u, hu, h2⟩ := Option.bind_eq_some.mp h
    exact (ih h2).trans (block_forwardShape_b hu)

theorem linearShape_spec {inf outf : ℕ} {s t : ℕ × ℕ}
    (h : linearShape inf outf s = some t) : t = (s.1, outf) := by
  rw [linearShape] at h
  split at h
  · exact (Option.some.inj h).symm
  · exact absurd h (by simp)

theorem poolFlattenShape_spec {s : Shape4} {t : ℕ × ℕ}
    (h : poolFlattenShape s = some t) : t = (s.b, s.c) := by
  rw [poolFlattenShape] at h
  split at h
  · exact (Option.some.inj h).symm
  · exact absurd h (by simp)

theorem ifSome_eq {α : Type} {c : Prop} [Decidable c] {x y : α}
    (h : (if c then some x else none) = some y) : y = x := by
  split at h
  · exact (Option.some.inj h).symm
  · exact absurd h (by simp)

theorem routeShape_b {conv : ConvCfg} {l1 l2 l3 : List Block} {s t : Shape4}
    (h : routeShape conv l1 l2 l3 s = some t) : t.b = s.b := by
  rw [routeShape] at h
  obtain ⟨s1, h1, h⟩ := Option.bind_eq_some.mp h
  obtain ⟨s2, h2, h⟩ := Option.bind_eq_some.mp h
  obtain ⟨s3, h3, h⟩ := Option.bind_eq_some.mp h
  exact ((blocksShape_b _ h).trans ((blocksShape_b _ h3).trans
    ((blocksShape_b _ h2).trans (convOutShape_b h1))))

theorem fusedShape_b {l4 l5 : List Block} {convExp : ConvCfg} {s : Shape4}
    {t : ℕ × ℕ} (h : fusedShape l4 l5 convExp s = some t) : t.1 = s.b := by
  rw [fusedShape] at h
  obtain ⟨s1, h1, h⟩ := Option.bind_eq_some.mp h
  obtain ⟨s2, h2, h⟩ := Option.bind_eq_some.mp h
  obtain ⟨s3, h3, h⟩ := Option.bind_eq_some.mp h
  rw [poolFlattenShape_spec h]
  exact ((convOutShape_b h3).trans ((blocksShape_b _ h2).trans (blocksShape_b _ h1)))

theorem headShape_spec {nc : ℕ} {s t : ℕ × ℕ} (h : headShape nc s = some t) :
    t = (s.1, nc) := by
  rw [headShape] at h
  obtain ⟨o1, h1, h⟩ := Option.bind_eq_some.mp h
  obtain ⟨o2, h2, h⟩ := Option.bind_eq_some.mp h
  obtain ⟨o3, h3, h⟩ := Option.bind_eq_some.mp h
  rw [linearShape_spec h, linearShape_spec h3, linearShape_spec h2, linearShape_spec h1]

theorem gift_init_num_classes {model_cfg : ModelCfg} {nc : ℕ} {net : GIFT_CIP}
    (h : GIFT_CIP.init model_cfg nc = some net) : net.num_classes = nc := by
  rw [GIFT_CIP.init] at h
  obtain ⟨ra, -, h⟩ := Option.bind_eq_some.mp h
  obtain ⟨rv, -, h⟩ := Option.bind_eq_some.mp h
  obtain ⟨raz, -, h⟩ := Option.bind_eq_some.mp h
  obtain ⟨rvz, -, h⟩ := Option.bind_eq_some.mp h
  obtain ⟨fav, -, h⟩ := Option.bind_eq_some.mp h
  obtain ⟨favz, -, h⟩ := Option.bind_eq_some.mp h
  obtain rfl := Option.some.inj h
  rfl

/-- C1: for every batch size `N ≥ 1` and every configured class count,
whenever the network built from a model configuration accepts four
`(N,1,224,224)` single-channel images and an `(N,5)` clinical tensor, the
returned logits shape is `(N, num_classes)`. -/
theorem gift_forward_shape (model_cfg : ModelCfg) (num_classes : ℕ) (net : GIFT_CIP)
    (hnet : GIFT_CIP.init model_cfg num_classes = some net)
    (N : ℕ) (_hN : 1 ≤ N) (out : ℕ × ℕ)
    (hout : net.forwardShape ⟨N, 1, 224, 224⟩ ⟨N, 1, 224, 224⟩ ⟨N, 1, 224, 224⟩
      ⟨N, 1, 224, 224⟩ (N, 5) = some out) :
    out = (N, num_classes) := by
  have hnc : net.num_classes = num_classes := gift_init_num_classes hnet
  rw [GIFT_CIP.forwardShape] at hout
  obtain ⟨a4, ha4, hout⟩ := Option.bind_eq_some.mp hout
  obtain ⟨v4, -, hout⟩ := Option.bind_eq_some.mp hout
  obtain ⟨az4, -, hout⟩ := Option.bind_eq_some.mp hout
  obtain ⟨vz4, -, hout⟩ := Option.bind_eq_some.mp hout
  obtain ⟨avS, havS, hout⟩ := Option.bind_eq_some.mp hout
  obtain ⟨avzS, -, hout⟩ := Option.bind_eq_some.mp hout
  obtain ⟨avP, havP, hout⟩ := Option.bind_eq_some.mp hout
  obtain ⟨avzP, -, hout⟩ := Option.bind_eq_some.mp hout
  obtain ⟨cf2, -, hout⟩ := Option.bind_eq_some.mp hout
  obtain ⟨catd, hcat, hout⟩ := Option.bind_eq_some.mp hout
  have hfin := headShape_spec hout
  have hb4 : a4.b = N := routeShape_b ha4
  have havSa : avS = a4 := ifSome_eq havS
  have hbavP : avP.1 = N := by
    rw [fusedShape_b havP, havSa, hb4]
  have hcatd : catd.1 = N := by
    rw [ifSome_eq hcat]
    simpa using hbavP
  rw [hfin, hcatd, hnc]

-- Witness for C1: the example configuration with 3 classes accepts a batch
-- of 2 `(2,1,224,224)` images plus `(2,5)` clinical features, and the logits
-- shape is `(2, 3)`.  (The rational-arithmetic primitives are unsealed so the
-- hidden widths evaluate by `decide`.)
unseal Rat.mul Rat.add Rat.inv Rat.sub in
theorem gift_forward_shape_witness :
    GIFT_CIP.init smallCfg 3 = some giftSmallNet ∧ (1 : ℕ) ≤ 2 ∧
    GIFT_CIP.forwardShape giftSmallNet ⟨2, 1, 224, 224⟩ ⟨2, 1, 224, 224⟩
      ⟨2, 1, 224, 224⟩ ⟨2, 1, 224, 224⟩ (2, 5) = some (2, 3) ∧
    ((2, 3) : ℕ × ℕ) = (2, 3) := by
  have hinit : GIFT_CIP.init smallCfg 3 = some giftSmallNet := by decide
  have hout : GIFT_CIP.forwardShape giftSmallNet ⟨2, 1, 224, 224⟩ ⟨2, 1, 224, 224⟩
      ⟨2, 1, 224, 224⟩ ⟨2, 1, 224, 224⟩ (2, 5) = some (2, 3) := by decide
  exact ⟨hinit, by decide, hout,
    gift_forward_shape smallCfg 3 giftSmallNet hinit 2 (by decide) (2, 3) hout⟩

end GIFT
